import Mathlib

/-!
Verification of the JSON path-resolution and rule-evaluation engine of
`check_http_json.py` (a Nagios-style HTTP JSON checker).

The Python source is shallowly embedded here:
* JSON documents become the inductive type `Json`;
* Python strings become `Str` (`List Char`);
* fallible Python code (exceptions) becomes `Except PyErr`;
* the recursive path resolver `JsonHelper.get` / `getSubElement` /
  `getSubArrayElement` is embedded with an explicit fuel parameter since the
  source can genuinely recurse forever on adversarial inputs (Python would
  eventually raise `RecursionError`, modelled by the fuel running out);
* numeric comparison uses rationals: Python `float()` arithmetic on the
  decimal literals the checker handles is exact, and no theorem below
  depends on binary floating-point rounding;
* display of Python `float` values and the `repr` of containers are
  abstracted by fixed renderings (no theorem depends on them).
-/

set_option maxHeartbeats 1000000

abbrev Str := List Char

/-- Errors raised by the embedded Python code. -/
inductive PyErr where
  | valueError
  | typeError
  | keyError
  | indexError
  | binasciiError
  | assertionError
  | recursionError
  deriving DecidableEq, Repr

deriving instance DecidableEq for Except

/-- A JSON document as produced by `json.loads`: Python distinguishes the
`int` and `float` it parses from JSON numbers. -/
inductive Json where
  | null : Json
  | bool (b : Bool) : Json
  | int (n : Int) : Json
  | float (q : ℚ) : Json
  | str (s : Str) : Json
  | arr (xs : List Json) : Json
  | obj (fs : List (Str × Json)) : Json

/-- `LookupResult`: `JsonHelper.get` either returns a subtree of the document
or the sentinel tuple `(None, 'not_found')`. -/
inductive LookupResult where
  | found (j : Json) : LookupResult
  | notFound : LookupResult

/-- Python `!=` against the sentinel tuple, as used by `JsonHelper.exists`. -/
def LookupResult.isFound : LookupResult → Bool
  | .found _ => true
  | .notFound => false

/-- Python truthiness of a JSON value (`if temp_data:`). -/
def truthy : Json → Bool
  | .null => false
  | .bool b => b
  | .int n => n ≠ 0
  | .float q => q ≠ 0
  | .str s => !s.isEmpty
  | .arr xs => !xs.isEmpty
  | .obj fs => !fs.isEmpty

/-- Index of the first occurrence of `needle` as a contiguous substring of
`hay` (`str.find`, before the `-1` encoding). -/
def firstSubIdx (needle hay : Str) : Option Nat :=
  match hay with
  | [] => if needle.isPrefixOf [] then some 0 else none
  | c :: t =>
    if needle.isPrefixOf (c :: t) then some 0
    else (firstSubIdx needle t).map (· + 1)

/-- Python `hay.find(needle)`: index of first occurrence, `-1` if absent. -/
def pyFindSub (hay needle : Str) : Int :=
  match firstSubIdx needle hay with
  | some i => (i : Int)
  | none => -1

/-- Python `hay.find(c)` for a single character. -/
def pyFindChar (c : Char) (hay : Str) : Int :=
  pyFindSub hay [c]

/-- Normalize a Python slice endpoint: negative indices count from the end,
out-of-range ones are clamped. -/
def pyIdxNorm (n : Nat) (i : Int) : Nat :=
  if i < 0 then (max 0 ((n : Int) + i)).toNat else (min i (n : Int)).toNat

/-- Python `l[a:]`. -/
def pySliceFrom (l : Str) (a : Int) : Str :=
  l.drop (pyIdxNorm l.length a)

/-- Python `l[:b]`. -/
def pySliceTo (l : Str) (b : Int) : Str :=
  l.take (pyIdxNorm l.length b)

/-- Python `l[a:b]`. -/
def pySliceFT (l : Str) (a b : Int) : Str :=
  (l.take (pyIdxNorm l.length b)).drop (pyIdxNorm l.length a)

/-- Python `s.split(sep)` for a single-character separator. -/
def splitOnChar (sep : Char) : Str → List Str
  | [] => [[]]
  | c :: t =>
    if c = sep then [] :: splitOnChar sep t
    else
      match splitOnChar sep t with
      | [] => [[c]]
      | h :: r => (c :: h) :: r

/-- Python `k.split("=", 1)` returning the two pieces, `none` when no `=`
occurs (where the source's tuple unpacking would raise `ValueError`). -/
def splitEq1 (k : Str) : Option (Str × Str) :=
  match firstSubIdx ['='] k with
  | some i => some (k.take i, k.drop (i + 1))
  | none => none

/-- Python `str.isdecimal()`. -/
def isDecimalStr (k : Str) : Bool :=
  (k ≠ []) && k.all Char.isDigit

/-- Numeric value of a string of decimal digits. -/
def digitsToNat (s : Str) : Nat :=
  s.foldl (fun a c => 10 * a + (c.toNat - '0'.toNat)) 0

/-- `str()` of a Python int. -/
def intStr (n : Int) : Str :=
  (toString n).data

/-- Truncation toward zero, Python `int(q)` of an exact ratio. -/
def truncRat (q : ℚ) : Int :=
  if 0 ≤ q then ⌊q⌋ else ⌈q⌉

/-- Python `float(s)` for plain decimal literals: optional sign, digits,
optional fractional part.  The model covers the decimal forms the checker's
rule grammar uses; other literals are treated as unparseable. -/
def parseFloatChars (s : Str) : Option ℚ :=
  let (neg, s1) :=
    match s with
    | '-' :: t => (true, t)
    | '+' :: t => (false, t)
    | _ => (false, s)
  let intPart := s1.takeWhile Char.isDigit
  let rest := s1.dropWhile Char.isDigit
  let sgn : Int := if neg then -1 else 1
  match rest with
  | [] => if intPart = [] then none else some (mkRat (sgn * (digitsToNat intPart : Int)) 1)
  | '.' :: frac =>
    if frac.all Char.isDigit ∧ (intPart ≠ [] ∨ frac ≠ []) then
      some (mkRat
        (sgn * ((digitsToNat intPart * 10 ^ frac.length + digitsToNat frac : Nat) : Int))
        (10 ^ frac.length))
    else none
  | _ => none

/-- Python `int(s)` for a string argument: optional sign then digits only. -/
def parseIntChars (s : Str) : Option Int :=
  let (neg, s1) :=
    match s with
    | '-' :: t => (true, t)
    | '+' :: t => (false, t)
    | _ => (false, s)
  if s1 ≠ [] ∧ s1.all Char.isDigit then
    some (if neg then -(digitsToNat s1 : Int) else (digitsToNat s1 : Int))
  else none

/-- Python `key in data` for the shapes `get` probes: mapping key membership,
sequence element membership, substring test on strings; scalars raise
`TypeError` (`argument of type 'int' is not iterable`). -/
def pyContains (key : Str) (data : Json) : Except PyErr Bool :=
  match data with
  | .obj fs => .ok (fs.any (fun f => f.1 == key))
  | .arr xs => .ok (xs.any (fun j => match j with | .str s => s == key | _ => false))
  | .str s => .ok ((firstSubIdx key s).isSome)
  | _ => .error .typeError

/-- Python `data[key]` for a string key.  Sequences and strings raise
`TypeError` (indices must be integers); scalars raise `TypeError`;
a mapping lookup takes the first binding. -/
def pySubscript (data : Json) (key : Str) : Except PyErr Json :=
  match data with
  | .obj fs =>
    match fs.find? (fun f => f.1 == key) with
    | some f => .ok f.2
    | none => .error .keyError
  | _ => .error .typeError

/-- Python `len(data)`. -/
def pyLen (data : Json) : Except PyErr Nat :=
  match data with
  | .obj fs => .ok fs.length
  | .arr xs => .ok xs.length
  | .str s => .ok s.length
  | _ => .error .typeError

/-- Python `data[i]` for a non-negative integer index. -/
def pyIndexNat (data : Json) (i : Nat) : Except PyErr Json :=
  match data with
  | .arr xs => if h : i < xs.length then .ok (xs.get ⟨i, h⟩) else .error .indexError
  | .str s => if h : i < s.length then .ok (.str [s.get ⟨i, h⟩]) else .error .indexError
  | .obj _ => .error .keyError
  | _ => .error .typeError

/-- Rendering of a Python float.  Binary floating-point `repr` is outside the
rational model; integral values get the exact `"n.0"` form and other values a
fixed placeholder.  No theorem below depends on this rendering. -/
def floatStr (q : ℚ) : Str :=
  if q.den = 1 then intStr q.num ++ ".0".data else "<float>".data

mutual

/-- Python `str()` of a JSON value (with `repr` used inside containers). -/
def pyStr : Json → Str
  | .null => "None".data
  | .bool b => if b then "True".data else "False".data
  | .int n => intStr n
  | .float q => floatStr q
  | .str s => s
  | .arr xs => '[' :: pyStrList xs ++ [']']
  | .obj fs => '\x7b' :: pyStrFields fs ++ ['\x7d']

/-- `repr` of a JSON value, as Python renders container elements. -/
def pyRepr : Json → Str
  | .str s => '\x27' :: s ++ ['\x27']
  | .null => "None".data
  | .bool b => if b then "True".data else "False".data
  | .int n => intStr n
  | .float q => floatStr q
  | .arr xs => '[' :: pyStrList xs ++ [']']
  | .obj fs => '\x7b' :: pyStrFields fs ++ ['\x7d']

def pyStrList : List Json → Str
  | [] => []
  | [j] => pyRepr j
  | j :: rest => pyRepr j ++ ", ".data ++ pyStrList rest

def pyStrFields : List (Str × Json) → Str
  | [] => []
  | [(k, v)] => '\x27' :: k ++ "\x27: ".data ++ pyRepr v
  | (k, v) :: rest => '\x27' :: k ++ "\x27: ".data ++ pyRepr v ++ ", ".data ++ pyStrFields rest

end

/-- `str()` of a `get` result: either the value or the sentinel tuple. -/
def pyStrLookup : LookupResult → Str
  | .found j => pyStr j
  | .notFound => "(None, \x27not_found\x27)".data

/-- Python `float()` of a JSON value. -/
def pyFloatJson : Json → Except PyErr ℚ
  | .int n => .ok (n : ℚ)
  | .float q => .ok q
  | .bool b => .ok (if b then 1 else 0)
  | .str s =>
    match parseFloatChars s with
    | some q => .ok q
    | none => .error .valueError
  | _ => .error .typeError

/-- Python `float()` of a `get` result (the sentinel tuple raises
`TypeError`). -/
def pyFloatLookup : LookupResult → Except PyErr ℚ
  | .found j => pyFloatJson j
  | .notFound => .error .typeError

/-- Value of a base64 alphabet character. -/
def b64val (c : Char) : Option Nat :=
  if 'A' ≤ c ∧ c ≤ 'Z' then some (c.toNat - 65)
  else if 'a' ≤ c ∧ c ≤ 'z' then some (c.toNat - 71)
  else if '0' ≤ c ∧ c ≤ '9' then some (c.toNat + 4)
  else if c = '+' then some 62
  else if c = '/' then some 63
  else none

/-- Decode base64 sextet values, four at a time, into bytes (as characters). -/
def b64quads : List Nat → List Nat
  | a :: b :: c :: d :: rest =>
    (a * 4 + b / 16) :: ((b % 16) * 16 + c / 4) :: ((c % 4) * 64 + d) :: b64quads rest
  | [a, b] => [a * 4 + b / 16]
  | [a, b, c] => [a * 4 + b / 16, (b % 16) * 16 + c / 4]
  | _ => []

/-- Python `base64.b64decode(s).decode()` (default non-validating mode):
characters outside the alphabet are discarded, then the data length must fit
the base64 framing, otherwise `binascii.Error` is raised.  Byte-to-text
decoding is modelled one byte per character. -/
def b64decode (s : Str) : Except PyErr Str :=
  let cs := s.filter (fun c => (b64val c).isSome || c = '=')
  let ds := s.filter (fun c => (b64val c).isSome)
  if ds.length % 4 = 1 then .error .binasciiError
  else if cs.length % 4 ≠ 0 then .error .binasciiError
  else .ok ((b64quads (ds.filterMap b64val)).map Char.ofNat)

/-- The `JsonHelper` object state: the parsed document and the configured
separator (`arrayOpener`/`arrayCloser` are the fixed `(` and `)`). -/
structure JsonHelper where
  data : Json
  separator : Char

/-- Lines 123-125 of the source: the remaining key after an array accessor.
`remainingKey = key[key.find(') ' + sep) + 2:]`, overwritten with
`key[key.find(')') + 1:]` when `')' + sep` does not occur in `key`. -/
def codeRemaining (sep : Char) (key : Str) : Str :=
  if pyFindSub key [')', sep] = -1 then pySliceFrom key (pyFindChar ')' key + 1)
  else pySliceFrom key (pyFindSub key [')', sep] + 2)

/-- `JsonHelper.getSubElement(key, data)`; `getR` is the recursive call
back into `self.get` (fuel threading is handled by `JsonHelper.get`). -/
def JsonHelper.getSubElement (h : JsonHelper)
    (getR : Str → Option Json → Except PyErr LookupResult) (key : Str) (data : Json) :
    Except PyErr LookupResult :=
  let separatorIndex := pyFindChar h.separator key
  let partKey := pySliceTo key separatorIndex
  let remainingKey := pySliceFrom key (separatorIndex + 1)
  do
  let b ← pyContains partKey data
  if b then do
    let child ← pySubscript data partKey
    getR remainingKey (some child)
  else pure .notFound

/-- The search-accessor scan of `getSubArrayElement` over
`for i in range(len(data))`: the first index `i` with
`str(self.get(n, data[i])) == str(v)`; `none` when no element matches
(`k` is then still a string and the source returns the sentinel). -/
def JsonHelper.searchLoop (getR : Str → Option Json → Except PyErr LookupResult)
    (n : Str) (data : Json) (target : Str) : List Nat → Except PyErr (Option Nat)
  | [] => pure none
  | i :: rest => do
    let elt ← pyIndexNat data i
    let r ← getR n (some elt)
    if pyStrLookup r == target then pure (some i)
    else JsonHelper.searchLoop getR n data target rest

/-- `JsonHelper.getSubArrayElement(key, data)`. -/
def JsonHelper.getSubArrayElement (h : JsonHelper)
    (getR : Str → Option Json → Except PyErr LookupResult) (key : Str) (data : Json) :
    Except PyErr LookupResult :=
  let opIdx := pyFindChar '(' key
  let clIdx := pyFindChar ')' key
  let subElemKey := pySliceTo key opIdx
  let k := pySliceFT key (opIdx + 1) clIdx
  do
  let idxO ←
    (if isDecimalStr k then pure (some (digitsToNat k))
     else
       match splitEq1 k with
       | none => .error .valueError
       | some nv => do
         let dv ← b64decode nv.2
         let ln ← pyLen data
         JsonHelper.searchLoop getR nv.1 data dv (List.range ln))
  match idxO with
  | none => pure .notFound
  | some index =>
    let remainingKey := codeRemaining h.separator key
    do
    let b ← pyContains subElemKey data
    if b then do
      let sub ← pySubscript data subElemKey
      let ln ← pyLen sub
      if index < ln then do
        let elt ← pyIndexNat sub index
        getR remainingKey (some elt)
      else pure .notFound
    else
      if subElemKey.isEmpty then do
        let elt ← pyIndexNat data index
        getR remainingKey (some elt)
      else pure .notFound

/-- `JsonHelper.get(key, temp_data='')`: `temp_data` defaults to the falsy
`''` (`none` here); a falsy `temp_data` makes the resolver fall back to the
root document `self.data`.  Recursion is bounded by an explicit fuel, one
unit per nested `get` call, modelling Python's recursion limit. -/
def JsonHelper.get (h : JsonHelper) : Nat → Str → Option Json → Except PyErr LookupResult
  | 0, _, _ => .error .recursionError
  | fuel + 1, key, tempData =>
    let data :=
      match tempData with
      | some j => if truthy j then j else h.data
      | none => h.data
    if key.length ≤ 0 then .ok (.found data)
    else
      let sepIdx := pyFindChar h.separator key
      let opIdx := pyFindChar '(' key
      if sepIdx ≠ -1 ∧ opIdx ≠ -1 then
        if sepIdx < opIdx then h.getSubElement (h.get fuel) key data
        else h.getSubArrayElement (h.get fuel) key data
      else if sepIdx ≠ -1 then h.getSubElement (h.get fuel) key data
      else if opIdx ≠ -1 then h.getSubArrayElement (h.get fuel) key data
      else do
        let b ← pyContains key data
        if b then do
          let j ← pySubscript data key
          pure (.found j)
        else pure .notFound

/-- `JsonHelper.exists(key)`: `self.get(key) != (None, 'not_found')`. -/
def JsonHelper.existsKey (h : JsonHelper) (fuel : Nat) (key : Str) : Except PyErr Bool := do
  let r ← h.get fuel key none
  pure r.isFound

/-- `JsonHelper.lte(key, value)`: `self.exists(key) and
float(self.get(key)) <= float(value)` with Python's left-to-right
short-circuit evaluation; `bound` is the (possibly failing) `float(value)`. -/
def JsonHelper.lteQ (h : JsonHelper) (fuel : Nat) (key : Str) (bound : Except PyErr ℚ) :
    Except PyErr Bool := do
  let e ← h.existsKey fuel key
  if e then do
    let r ← h.get fuel key none
    let lv ← pyFloatLookup r
    let bv ← bound
    pure (decide (lv ≤ bv))
  else pure false

/-- `JsonHelper.lt(key, value)`. -/
def JsonHelper.ltQ (h : JsonHelper) (fuel : Nat) (key : Str) (bound : Except PyErr ℚ) :
    Except PyErr Bool := do
  let e ← h.existsKey fuel key
  if e then do
    let r ← h.get fuel key none
    let lv ← pyFloatLookup r
    let bv ← bound
    pure (decide (lv < bv))
  else pure false

/-- `JsonHelper.gte(key, value)`. -/
def JsonHelper.gteQ (h : JsonHelper) (fuel : Nat) (key : Str) (bound : Except PyErr ℚ) :
    Except PyErr Bool := do
  let e ← h.existsKey fuel key
  if e then do
    let r ← h.get fuel key none
    let lv ← pyFloatLookup r
    let bv ← bound
    pure (decide (bv ≤ lv))
  else pure false

/-- `JsonHelper.gt(key, value)`. -/
def JsonHelper.gtQ (h : JsonHelper) (fuel : Nat) (key : Str) (bound : Except PyErr ℚ) :
    Except PyErr Bool := do
  let e ← h.existsKey fuel key
  if e then do
    let r ← h.get fuel key none
    let lv ← pyFloatLookup r
    let bv ← bound
    pure (decide (bv < lv))
  else pure false

/-- `JsonHelper.equals(key, value)`: `self.exists(key) and
str(self.get(key)) in value.split(':')`. -/
def JsonHelper.equalsV (h : JsonHelper) (fuel : Nat) (key value : Str) : Except PyErr Bool := do
  let e ← h.existsKey fuel key
  if e then do
    let r ← h.get fuel key none
    pure ((splitOnChar ':' value).contains (pyStrLookup r))
  else pure false

/-- An argument passed to `TypeHelper`: a `get` result, a raw rule-string
token, or the literal Python int `0` (the default `start`). -/
inductive ThArg where
  | lookup (r : LookupResult) : ThArg
  | strArg (s : Str) : ThArg
  | intArg (n : Int) : ThArg

/-- Python `int(value)` on a `TypeHelper` argument. -/
def pyIntArg : ThArg → Except PyErr Int
  | .intArg n => .ok n
  | .strArg s =>
    match parseIntChars s with
    | some n => .ok n
    | none => .error .valueError
  | .lookup (.found j) =>
    match j with
    | .int n => .ok n
    | .float q => .ok (truncRat q)
    | .bool b => .ok (if b then 1 else 0)
    | .str s =>
      match parseIntChars s with
      | some n => .ok n
      | none => .error .valueError
    | _ => .error .typeError
  | .lookup .notFound => .error .typeError

/-- Python `str(value)` on a `TypeHelper` argument. -/
def pyStrArg : ThArg → Str
  | .intArg n => intStr n
  | .strArg s => s
  | .lookup r => pyStrLookup r

/-- The binary system of `TypeHelper`'s `size` branch. -/
def binarySystem : List (Int × Str) :=
  [(1024 ^ 5, " PiB".data), (1024 ^ 4, " TiB".data), (1024 ^ 3, " GiB".data),
   (1024 ^ 2, " MiB".data), (1024 ^ 1, " KiB".data), (1024 ^ 0, " bytes".data)]

/-- The decimal system of `TypeHelper`'s `SI` branch. -/
def siSystem : List (Int × Str) :=
  [(1000 ^ 5, "P".data), (1000 ^ 4, "T".data), (1000 ^ 3, "G".data),
   (1000 ^ 2, "M".data), (1000 ^ 1, "K".data), (1000 ^ 0, "B".data)]

/-- Truncating division toward zero (Python `int(b/factor)` on exact values,
with the float-division rounding abstracted away). -/
def truncDiv (b factor : Int) : Int :=
  if 0 ≤ b then (b.natAbs / factor.natAbs : Nat) else -((b.natAbs / factor.natAbs : Nat) : Int)

/-- `get_size(b, system)`: the `for ... break` loop keeps the first factor
with `b >= factor`, otherwise the loop variable retains the last entry. -/
def get_size (b : Int) (system : List (Int × Str)) : Str :=
  let entry :=
    match system.find? (fun p => decide (p.1 ≤ b)) with
    | some p => p
    | none => system.getLast? |>.getD (1, [])
  intStr (truncDiv b entry.1) ++ entry.2

/-- Python `str.lower()` (ASCII). -/
def lowerStr (s : Str) : Str :=
  s.map Char.toLower

/-- `TypeHelper(value, field_type)`: `size` and `SI` scale `int(value)`;
anything else asserts `field_type == 'str'` and returns `str(value)`. -/
def typeHelper (ft : Str) (v : ThArg) : Except PyErr Str :=
  if ft = "size".data then do
    let b ← pyIntArg v
    pure (get_size b binarySystem)
  else if lowerStr ft = "si".data then do
    let b ← pyIntArg v
    pure (get_size b siSystem)
  else if ft = "str".data then pure (pyStrArg v)
  else .error .assertionError

/-- `_getKeyAlias(original_key)`. -/
def getKeyAlias (k : Str) : Str × Str :=
  if '>' ∈ k then
    match splitOnChar '>' k with
    | [a, b] => (a, b)
    | _ => (k, k)
  else (k, k)

/-- The `start` variable of `checkThreshold`: the Python int `0` default or
the string token `vals[0]`. -/
inductive ThStart where
  | zero : ThStart
  | tok (s : Str) : ThStart

/-- Python `start == '~'` (the int `0` never equals a string). -/
def ThStart.isTilde : ThStart → Bool
  | .zero => false
  | .tok s => s == "~".data

/-- `start` as a `TypeHelper` argument. -/
def ThStart.arg : ThStart → ThArg
  | .zero => .intArg 0
  | .tok s => .strArg s

/-- Python `float()` of a rule-string token. -/
def tokFloat (s : Str) : Except PyErr ℚ :=
  match parseFloatChars s with
  | some q => .ok q
  | none => .error .valueError

/-- Python `float(start)`. -/
def ThStart.float : ThStart → Except PyErr ℚ
  | .zero => .ok 0
  | .tok s => tokFloat s

/-- The if/elif/else skeleton shared by the three range branches of
`checkThreshold`: evaluate the first condition, on success emit the first
failure message, otherwise evaluate the second condition (Python's `elif`
short-circuit), on success emit the second failure message, otherwise emit
the success message. -/
def evalBranch (c1 c2 : Except PyErr Bool) (f1 f2 s : Except PyErr (Str × Str)) :
    Except PyErr (Str × Str) := do
  let x ← c1
  if x then f1
  else do
    let y ← c2
    if y then f2 else s

/-- The branch structure of `JsonRuleProcessor.checkThreshold` after the
range string is parsed (lines 225-250): `key_val` is computed first, then
one of three branches (`start == '~'`, `end == 'infinity'`, bounded range)
fires, preserving Python's `and`/`or` short-circuit evaluation order. -/
def ctBranch (fuel : Nat) (ft : Str) (h : JsonHelper) (key al : Str)
    (invert : Bool) (start : ThStart) (endTok : Str) : Except PyErr (Str × Str) := do
  let keyVal ← typeHelper ft (.lookup (← h.get fuel key none))
  let invertStr := if invert then "not".data else ([] : Str)
  if start.isTilde then
    evalBranch
      (if invert then h.lteQ fuel key (tokFloat endTok) else pure false)
      (if !invert then h.gtQ fuel key (tokFloat endTok) else pure false)
      (do
        let te ← typeHelper ft (.strArg endTok)
        pure (" Value for key ".data ++ al ++ " (".data ++ keyVal ++
          ") was less than or equal to ".data ++ te ++ ".".data, ([] : Str)))
      (do
        let te ← typeHelper ft (.strArg endTok)
        pure (" Value for key ".data ++ al ++ " (".data ++ keyVal ++
          ") was greater than ".data ++ te ++ ".".data, ([] : Str)))
      (do
        let te ← typeHelper ft (.strArg endTok)
        pure (([] : Str), " Value for key ".data ++ al ++ " (".data ++ keyVal ++
          ") was".data ++ invertStr ++ " in range \x27:".data ++ te ++ "\x27.".data))
  else if endTok = "infinity".data then
    evalBranch
      (if invert then h.gteQ fuel key start.float else pure false)
      (if !invert then h.ltQ fuel key start.float else pure false)
      (do
        let ts ← typeHelper ft start.arg
        pure (" Value for key ".data ++ al ++ " (".data ++ keyVal ++
          ") was greater than or equal to ".data ++ ts ++ ".".data, ([] : Str)))
      (do
        let ts ← typeHelper ft start.arg
        pure (" Value for key ".data ++ al ++ " (".data ++ keyVal ++
          ") was less than ".data ++ ts ++ ".".data, ([] : Str)))
      (do
        let ts ← typeHelper ft start.arg
        pure (([] : Str), " Value for key ".data ++ al ++ " (".data ++ keyVal ++
          ") was".data ++ invertStr ++ " in range \x27".data ++ ts ++ ":\x27.".data))
  else
    evalBranch
      (if invert then
        (do
          let g ← h.gteQ fuel key start.float
          if g then h.lteQ fuel key (tokFloat endTok) else pure false)
       else pure false)
      (if !invert then
        (do
          let l ← h.ltQ fuel key start.float
          if l then pure true else h.gtQ fuel key (tokFloat endTok))
       else pure false)
      (do
        let ts ← typeHelper ft start.arg
        let te ← typeHelper ft (.strArg endTok)
        pure (" Value for key ".data ++ al ++ " (".data ++ keyVal ++
          ") was inside the range \x27".data ++ ts ++ " : ".data ++ te ++ "\x27.".data,
          ([] : Str)))
      (do
        let ts ← typeHelper ft start.arg
        let te ← typeHelper ft (.strArg endTok)
        pure (" Value for key ".data ++ al ++ " (".data ++ keyVal ++
          ") was outside the range \x27".data ++ ts ++ " : ".data ++ te ++ "\x27.".data,
          ([] : Str)))
      (do
        let ts ← typeHelper ft start.arg
        let te ← typeHelper ft (.strArg endTok)
        pure (([] : Str), " Value for key ".data ++ al ++ " (".data ++ keyVal ++
          ") was".data ++ invertStr ++ " in range \x27".data ++ ts ++ " : ".data ++ te ++
          "\x27.".data))

/-- `r.startswith('@')` handling at the top of `checkThreshold`. -/
def stripAt (r : Str) : Bool × Str :=
  match r with
  | '@' :: t => (true, t)
  | _ => (false, r)

/-- `JsonRuleProcessor.checkThreshold(key, alias, r)`: strip an optional
leading `@` (inversion), split on `:`, default `start = 0` and
`end = 'infinity'`, then evaluate. -/
def checkThreshold (fuel : Nat) (ft : Str) (h : JsonHelper) (key al r : Str) :
    Except PyErr (Str × Str) :=
  let ir := stripAt r
  let vals := splitOnChar ':' ir.2
  let start := if vals.length = 2 then ThStart.tok (vals.getD 0 []) else ThStart.zero
  let endTok :=
    if vals.length = 1 then vals.getD 0 []
    else if vals.length = 2 then
      (if vals.getD 1 [] ≠ [] then vals.getD 1 [] else "infinity".data)
    else "infinity".data
  ctBranch fuel ft h key al ir.1 start endTok

/-- Python `k, r = s.split(',')`: exactly two comma-separated parts, else
the tuple unpacking raises `ValueError`. -/
def split2comma (t : Str) : Except PyErr (Str × Str) :=
  match splitOnChar ',' t with
  | [a, b] => .ok (a, b)
  | _ => .error .valueError

/-- `JsonRuleProcessor.checkThresholds(threshold_list)`: evaluate each rule
in order, concatenating failure and success text; an exception in any rule
aborts the whole loop. -/
def checkThresholds (fuel : Nat) (ft : Str) (h : JsonHelper) :
    List Str → Except PyErr (Str × Str)
  | [] => pure ([], [])
  | t :: rest => do
    let kr ← split2comma t
    let ka := getKeyAlias kr.1
    let res ← checkThreshold fuel ft h ka.1 ka.2 kr.2
    let res2 ← checkThresholds fuel ft h rest
    pure (res.1 ++ res2.1, res.2 ++ res2.2)

/-- `JsonRuleProcessor.checkEquality(equality_list)`. -/
def checkEquality (fuel : Nat) (ft : Str) (h : JsonHelper) :
    List Str → Except PyErr (Str × Str)
  | [] => pure ([], [])
  | kv :: rest => do
    let kvp ← split2comma kv
    let ka := getKeyAlias kvp.1
    let keyVal ← typeHelper ft (.lookup (← h.get fuel ka.1 none))
    let eq ← h.equalsV fuel ka.1 kvp.2
    let entry :=
      if eq then
        (([] : Str), " Value for key ".data ++ ka.2 ++ " (".data ++ keyVal ++
          ") does match ".data ++ kvp.2 ++ ".".data)
      else
        (" Value for key ".data ++ ka.2 ++ " (".data ++ keyVal ++
          ") did not match ".data ++ kvp.2 ++ ".".data, ([] : Str))
    let res2 ← checkEquality fuel ft h rest
    pure (entry.1 ++ res2.1, entry.2 ++ res2.2)

/-- The comma-splitting of one metric spec in `checkMetrics`: only part
counts 2, 4 and 6 are recognized; any other comma count leaves the whole
spec as the key with no unit or ranges. -/
def metricParse (metric : Str) :
    Str × Str × Option Str × Option Str × Option Str × Option Str :=
  if ',' ∈ metric then
    let vals := splitOnChar ',' metric
    if vals.length = 2 then (vals.getD 0 [], vals.getD 1 [], none, none, none, none)
    else if vals.length = 4 then
      (vals.getD 0 [], vals.getD 1 [], some (vals.getD 2 []), some (vals.getD 3 []), none, none)
    else if vals.length = 6 then
      (vals.getD 0 [], vals.getD 1 [], some (vals.getD 2 []), some (vals.getD 3 []),
       some (vals.getD 4 []), some (vals.getD 5 []))
    else (metric, [], none, none, none, none)
  else (metric, [], none, none, none, none)

/-- `JsonRuleProcessor.checkMetrics()`: returns `(metrics, warning,
critical)`.  `warn_range` failures feed the warning tier; `crit_range`,
`minimum` (as range `min + ':'`) and `maximum` (as range `'~:' + max`)
failures all feed the critical tier; a trailing space is appended per spec
whether or not the key exists. -/
def checkMetrics (fuel : Nat) (ft : Str) (h : JsonHelper) :
    List Str → Except PyErr (Str × Str × Str)
  | [] => pure ([], [], [])
  | metric :: rest => do
    let p := metricParse metric
    let ka := getKeyAlias p.1
    let e ← h.existsKey fuel ka.1
    let entry ←
      if e then do
        let r ← h.get fuel ka.1 none
        let m0 := '\x27' :: ka.2 ++ "\x27=".data ++ pyStrLookup r
        let m1 := if !p.2.1.isEmpty then m0 ++ p.2.1 else m0
        let s2 ←
          match p.2.2.1 with
          | some wr => do
            let t ← checkThreshold fuel ft h ka.1 ka.2 wr
            pure (m1 ++ ";".data ++ wr, t.1)
          | none => pure (m1, ([] : Str))
        let s3 ←
          match p.2.2.2.1 with
          | some cr => do
            let t ← checkThreshold fuel ft h ka.1 ka.2 cr
            pure (s2.1 ++ ";".data ++ cr, t.1)
          | none => pure (s2.1, ([] : Str))
        let s4 ←
          match p.2.2.2.2.1 with
          | some mn => do
            let t ← checkThreshold fuel ft h ka.1 ka.2 (mn ++ ":".data)
            pure (s3.1 ++ ";".data ++ mn, t.1)
          | none => pure (s3.1, ([] : Str))
        let s5 ←
          match p.2.2.2.2.2 with
          | some mx => do
            let t ← checkThreshold fuel ft h ka.1 ka.2 ("~:".data ++ mx)
            pure (s4.1 ++ ";".data ++ mx, t.1)
          | none => pure (s4.1, ([] : Str))
        pure (s5.1, s2.2, s3.2 ++ s4.2 ++ s5.2)
      else pure (([] : Str), ([] : Str), ([] : Str))
    let res ← checkMetrics fuel ft h rest
    pure ((entry.1 ++ " ".data) ++ res.1, entry.2.1 ++ res.2.1, entry.2.2 ++ res.2.2)

/-- The mutable message state of `NagiosHelper`. -/
structure NagiosHelper where
  status_message : Str
  performance_data : Str
  warning_message : Str
  critical_message : Str
  unknown_message : Str

/-- `NagiosHelper.getCode()`: sequential overwriting `if`s, so the last
non-empty tier checked wins. -/
def NagiosHelper.getCode (n : NagiosHelper) : Nat :=
  let code := 0
  let code := if n.warning_message ≠ [] then 1 else code
  let code := if n.critical_message ≠ [] then 2 else code
  if n.unknown_message ≠ [] then 3 else code

/-- Nagios status codes. -/
def OK_CODE : Nat := 0
def WARNING_CODE : Nat := 1
def CRITICAL_CODE : Nat := 2
def UNKNOWN_CODE : Nat := 3

/-- Modelled from the spec (section 4.1): after an array or search accessor
resolves, "the remaining path is everything after the matching close-marker;
if followed immediately by a separator, skip it before recursing; otherwise
recurse directly on the remainder".  The segment's own close-marker is the
first `)` of the key (the accessor body runs up to `key.find(')')`). -/
def specRemaining (sep : Char) (key : Str) : Str :=
  let after := pySliceFrom key (pyFindChar ')' key + 1)
  match after with
  | c :: t => if c = sep then t else after
  | [] => []

/-- Document `{"a": {}, "x": 5}` with the default separator. -/
def jsonHelperC1 : JsonHelper :=
  ⟨.obj [("a".data, .obj []), ("x".data, .int 5)], '.'⟩

/-- Document `{"k": [{"name": 0}], "m": 1}` with the default separator. -/
def jsonHelperC6 : JsonHelper :=
  ⟨.obj [("k".data, .arr [.obj [("name".data, .int 0)]]), ("m".data, .int 1)], '.'⟩

/-- A threshold rule whose search accessor carries the invalid base64
payload `A` (one data character: invalid base64 framing). -/
def badB64Rule : Str := "k(name=A).v,1:2".data

/-- A well-formed threshold rule on the same document whose value `1` fails
the range `5:`. -/
def failingRule : Str := "m,5:".data

/-- Document `{"m": 5}` with the default separator. -/
def jsonHelperM5 : JsonHelper := ⟨.obj [("m".data, .int 5)], '.'⟩

lemma ok_bind {α β : Type} (a : α) (f : α → Except PyErr β) :
    ((Except.ok a : Except PyErr α) >>= f) = f a := rfl

lemma err_bind {α β : Type} (e : PyErr) (f : α → Except PyErr β) :
    ((Except.error e : Except PyErr α) >>= f) = .error e := rfl

lemma append_left_ne_nil {a : Str} (h : a ≠ []) (b : Str) : a ++ b ≠ [] := by
  intro hab
  exact h (List.append_eq_nil.mp hab).1

lemma splitOnChar_eq_single {sep : Char} {l : Str} (h : sep ∉ l) :
    splitOnChar sep l = [l] := by
  induction l with
  | nil => rfl
  | cons c t ih =>
    rw [List.mem_cons, not_or] at h
    unfold splitOnChar
    rw [if_neg (fun hc => h.1 hc.symm), ih h.2]

/-- C5: the final severity code is UNKNOWN if the unknown-tier text is
non-empty, else CRITICAL if the critical-tier text is non-empty, else
WARNING if the warning-tier text is non-empty, else OK; in particular both
warning and critical non-empty yields CRITICAL, and any unknown-tier
message yields UNKNOWN regardless of the other tiers. -/
theorem c5_severity_precedence (n : NagiosHelper) :
    n.getCode =
      (if n.unknown_message ≠ [] then UNKNOWN_CODE
       else if n.critical_message ≠ [] then CRITICAL_CODE
       else if n.warning_message ≠ [] then WARNING_CODE
       else OK_CODE) := by
  unfold NagiosHelper.getCode OK_CODE WARNING_CODE CRITICAL_CODE UNKNOWN_CODE
  by_cases hu : n.unknown_message = [] <;>
    by_cases hc : n.critical_message = [] <;>
      by_cases hw : n.warning_message = [] <;> simp [hu, hc, hw]

/-- C1 (code bug): on the document `{"a": {}, "x": 5}` the path `a.x`
addresses no node (the member `a` is the empty mapping), yet `get` returns
`Found 5`: recursing into the falsy intermediate `{}` makes `if temp_data:`
fall back to the root document, so the tail `x` is resolved against the
root, contradicting `get`'s own docstring ("Returns (None, 'not_found')
if not found"). -/
theorem c1_falsy_intermediate_resolves_from_root :
    jsonHelperC1.get 10 "a.x".data none = .ok (.found (.int 5)) ∧
    pySubscript jsonHelperC1.data "a".data = .ok (.obj []) := ⟨rfl, rfl⟩

/-- C2 counterexample: on the key `a(0)(1).b` the segment's own close-marker
is the first `)` and is not followed by the separator; the spec remainder is
`(1).b`, but the code recurses on `b`, dropping the characters `(1).` up to
the later occurrence of `)` + separator. -/
theorem c2_counterexample_chars_dropped :
    codeRemaining '.' "a(0)(1).b".data ≠ specRemaining '.' "a(0)(1).b".data ∧
    codeRemaining '.' "a(0)(1).b".data = "b".data ∧
    specRemaining '.' "a(0)(1).b".data = "(1).b".data :=
  ⟨by decide, rfl, rfl⟩

lemma isPrefixOf_single_head (y x : Char) (t u v : Str) :
    [y].isPrefixOf (t ++ x :: u) = [y].isPrefixOf (t ++ x :: v) := by
  cases t <;> simp [List.isPrefixOf]

lemma firstSubIdx_pair (x y : Char) (a b : Str)
    (h : firstSubIdx [x, y] (a ++ [x]) = none) :
    firstSubIdx [x, y] (a ++ x :: y :: b) = some a.length := by
  induction a with
  | nil =>
    simp [firstSubIdx, List.isPrefixOf]
  | cons c t ih =>
    rw [List.cons_append] at h ⊢
    unfold firstSubIdx at h ⊢
    by_cases hp : [x, y].isPrefixOf (c :: (t ++ [x])) = true
    · rw [if_pos hp] at h
      exact absurd h (by simp)
    · rw [if_neg hp] at h
      have hp2 : ¬ ([x, y].isPrefixOf (c :: (t ++ x :: y :: b)) = true) := by
        intro hq
        apply hp
        simp only [List.isPrefixOf] at hq ⊢
        rw [show (t ++ [x]) = t ++ x :: ([] : Str) by simp]
        rw [isPrefixOf_single_head y x t ([] : Str) (y :: b)]
        exact hq
      rw [if_neg hp2]
      have h3 : firstSubIdx [x, y] (t ++ [x]) = none := by
        rcases ho : firstSubIdx [x, y] (t ++ [x]) with _ | n
        · rfl
        · rw [ho] at h; simp at h
      rw [ih h3]
      simp [List.length_cons]

/-- C2 (amended): after an array or search accessor resolves, the code
recurses on the text after the first occurrence of `)` + separator anywhere
in the key (skipping both characters); when the segment's own close-marker
is immediately followed by the separator this is the text directly after it,
but otherwise any characters between the close-marker and that first
`)` + separator occurrence are dropped (see the counterexample); only when
`)` + separator occurs nowhere does it recurse on the text directly after
the first close-marker. -/
theorem c2_amended_first_closer_sep_rule (sep : Char) (a b : Str)
    (h : firstSubIdx [')', sep] (a ++ [')']) = none) :
    codeRemaining sep (a ++ ')' :: sep :: b) = b := by
  have hf : firstSubIdx [')', sep] (a ++ ')' :: sep :: b) = some a.length :=
    firstSubIdx_pair ')' sep a b h
  have hfind : pyFindSub (a ++ ')' :: sep :: b) [')', sep] = (a.length : Int) := by
    unfold pyFindSub
    rw [hf]
  have hlen : (a ++ ')' :: sep :: b).length = a.length + 2 + b.length := by
    simp
    omega
  unfold codeRemaining
  rw [hfind]
  rw [if_neg (show ((a.length : Int) = -1) → False by omega)]
  unfold pySliceFrom pyIdxNorm
  rw [if_neg (show ((a.length : Int) + 2 < 0) → False by omega)]
  have h2 : (min ((a.length : Int) + 2) ((a ++ ')' :: sep :: b).length : Int)).toNat
      = a.length + 2 := by
    rw [hlen]
    omega
  rw [h2]
  rw [show a ++ ')' :: sep :: b = (a ++ [')', sep]) ++ b by simp]
  rw [show a.length + 2 = (a ++ [')', sep]).length by simp]
  exact List.drop_left _ _

/-- Witness for the amended C2 statement at the key `x(1).y`. -/
theorem c2_amended_witness :
    firstSubIdx [')', '.'] ("x(1".data ++ [')']) = none ∧
    codeRemaining '.' ("x(1".data ++ ')' :: '.' :: "y".data) = "y".data :=
  ⟨by decide, c2_amended_first_closer_sep_rule '.' "x(1".data "y".data (by decide)⟩

/-- C6 counterexample: with rules `k(name=A).v,1:2` (invalid base64 payload
`A`) followed by `m,5:`, the run aborts with the decode error; the second
rule on its own would have produced warning text, so its result is not
aggregated. -/
theorem c6_counterexample_decode_error_aborts_run :
    checkThresholds 10 "str".data jsonHelperC6 [badB64Rule, failingRule]
      = .error .binasciiError ∧
    checkThresholds 10 "str".data jsonHelperC6 [failingRule]
      = .ok (" Value for key m (1) was less than 5.".data, []) := ⟨rfl, by decide⟩

/-- C6 (amended): an invalid base64 payload in a search accessor raises an
uncaught decode error that aborts the entire evaluation: whatever rules
follow the failing one, the loop returns the decode error and never
evaluates or aggregates them. -/
theorem c6_amended_decode_error_uncaught (rest : List Str) :
    checkThresholds 10 "str".data jsonHelperC6 (badB64Rule :: rest)
      = .error .binasciiError := rfl

/-- C7 counterexample: the malformed 3-part metric spec `m,a,b` (part count
not in {1,2,4,6}) surfaces no error: the whole spec string is treated as a
key, which does not resolve, so the rule is silently skipped (only the
unconditional trailing space is emitted) with no failure text. -/
theorem c7_counterexample_metric_3_parts_silent :
    checkMetrics 10 "str".data jsonHelperM5 ["m,a,b".data] = .ok (" ".data, [], []) := by
  decide

/-- C7 (amended): an equality/threshold rule string missing its required
comma (or having too many commas) raises an uncaught unpack `ValueError`,
which is surfaced to the caller; but a metric spec whose comma count is not
a supported shape is silently treated as a single unsplit key and skipped
when that key does not resolve (see the counterexample), and a non-numeric
range bound raises only when the comparison that parses it is actually
evaluated. -/
theorem c7_amended_missing_comma_raises (fuel : Nat) (ft : Str) (h : JsonHelper)
    (t : Str) (rest : List Str) (hc : ',' ∉ t) :
    checkThresholds fuel ft h (t :: rest) = .error .valueError := by
  have hs : splitOnChar ',' t = [t] := splitOnChar_eq_single hc
  simp only [checkThresholds, split2comma, hs, err_bind]

/-- Witness for the amended C7 statement: the comma-less rule `m5`. -/
theorem c7_amended_witness :
    (',' ∉ "m5".data) ∧
    checkThresholds 5 "str".data jsonHelperM5 ["m5".data] = .error .valueError :=
  ⟨by decide, c7_amended_missing_comma_raises 5 "str".data jsonHelperM5 "m5".data [] (by decide)⟩

lemma pure_eq_ok {α : Type} (a : α) : (pure a : Except PyErr α) = .ok a := rfl

lemma existsKey_notFound {h : JsonHelper} {fuel : Nat} {key : Str}
    (hnf : h.get fuel key none = .ok .notFound) :
    h.existsKey fuel key = .ok false := by
  unfold JsonHelper.existsKey
  rw [hnf]
  rfl

lemma lteQ_notFound {h : JsonHelper} {fuel : Nat} {key : Str}
    (hnf : h.get fuel key none = .ok .notFound) (bnd : Except PyErr ℚ) :
    h.lteQ fuel key bnd = .ok false := by
  unfold JsonHelper.lteQ
  rw [existsKey_notFound hnf]
  rfl

lemma ltQ_notFound {h : JsonHelper} {fuel : Nat} {key : Str}
    (hnf : h.get fuel key none = .ok .notFound) (bnd : Except PyErr ℚ) :
    h.ltQ fuel key bnd = .ok false := by
  unfold JsonHelper.ltQ
  rw [existsKey_notFound hnf]
  rfl

lemma gteQ_notFound {h : JsonHelper} {fuel : Nat} {key : Str}
    (hnf : h.get fuel key none = .ok .notFound) (bnd : Except PyErr ℚ) :
    h.gteQ fuel key bnd = .ok false := by
  unfold JsonHelper.gteQ
  rw [existsKey_notFound hnf]
  rfl

lemma gtQ_notFound {h : JsonHelper} {fuel : Nat} {key : Str}
    (hnf : h.get fuel key none = .ok .notFound) (bnd : Except PyErr ℚ) :
    h.gtQ fuel key bnd = .ok false := by
  unfold JsonHelper.gtQ
  rw [existsKey_notFound hnf]
  rfl

lemma typeHelper_str (v : ThArg) :
    typeHelper ('s' :: 't' :: 'r' :: ([] : Str)) v = .ok (pyStrArg v) := rfl

lemma ctBranch_notFound_str (fuel : Nat) (h : JsonHelper) (key al : Str)
    (invert : Bool) (start : ThStart) (endTok : Str)
    (hnf : h.get fuel key none = .ok .notFound) :
    ∃ s, ctBranch fuel "str".data h key al invert start endTok = .ok ([], s) ∧ s ≠ [] := by
  unfold ctBranch
  rw [hnf]
  cases invert <;>
    by_cases hst : start.isTilde = true <;>
      by_cases hinf : endTok = "infinity".data <;>
        simp only [hst, hinf, ok_bind, pure_eq_ok, typeHelper_str, lteQ_notFound hnf,
          ltQ_notFound hnf, gteQ_notFound hnf, gtQ_notFound hnf, Bool.false_eq_true,
          Bool.not_false, Bool.not_true, eq_self_iff_true, ite_self, if_true, if_false,
          ite_true, ite_false, Bool.true_eq_false, not_false_iff, not_true] <;>
        exact ⟨_, rfl, by
          simp only [List.append_assoc]
          exact append_left_ne_nil (by decide) _⟩

/-- C10 (amended): under the default `str` field type, a threshold rule
(any range form, inverted or not) whose key resolves to NotFound produces
no failure text and non-empty success text: every numeric comparison on a
NotFound key evaluates to false and control falls through to the success
branch.  Under the `size`/`SI` field types the claim fails: rendering the
not-found sentinel raises a `TypeError` instead (see the counterexample). -/
theorem c10_amended_not_found_is_success_str (fuel : Nat) (h : JsonHelper) (key al r : Str)
    (hnf : h.get fuel key none = .ok .notFound) :
    ∃ s, checkThreshold fuel "str".data h key al r = .ok ([], s) ∧ s ≠ [] := by
  unfold checkThreshold
  exact ctBranch_notFound_str _ h key al _ _ _ hnf

/-- C10 counterexample: with field type `size`, a missing key does not
yield success text: `TypeHelper` calls `int()` on the not-found sentinel
tuple, raising a `TypeError` that aborts the run. -/
theorem c10_counterexample_size_mode_raises :
    jsonHelperM5.get 10 "missing".data none = .ok .notFound ∧
    checkThreshold 10 "size".data jsonHelperM5 "missing".data "missing".data "5".data
      = .error .typeError := ⟨rfl, rfl⟩

/-- Witness for the amended C10 statement at the inverted range `@1:5`. -/
theorem c10_amended_witness :
    jsonHelperM5.get 7 "missing".data none = .ok .notFound ∧
    ∃ s, checkThreshold 7 "str".data jsonHelperM5 "missing".data "missing".data "@1:5".data
      = .ok ([], s) ∧ s ≠ [] :=
  ⟨rfl, c10_amended_not_found_is_success_str 7 jsonHelperM5 "missing".data "missing".data
    "@1:5".data rfl⟩

lemma existsKey_found {h : JsonHelper} {fuel : Nat} {key : Str} {j : Json}
    (hg : h.get fuel key none = .ok (.found j)) :
    h.existsKey fuel key = .ok true := by
  unfold JsonHelper.existsKey
  rw [hg]
  rfl

lemma lteQ_found {h : JsonHelper} {fuel : Nat} {key : Str} {j : Json} {v : ℚ}
    (hg : h.get fuel key none = .ok (.found j)) (hv : pyFloatJson j = .ok v)
    {bnd : Except PyErr ℚ} {b : ℚ} (hb : bnd = .ok b) :
    h.lteQ fuel key bnd = .ok (decide (v ≤ b)) := by
  unfold JsonHelper.lteQ
  rw [existsKey_found hg]
  simp only [ok_bind, if_true, eq_self_iff_true, ite_true, hg, pyFloatLookup, hv, hb,
    pure_eq_ok]

lemma ltQ_found {h : JsonHelper} {fuel : Nat} {key : Str} {j : Json} {v : ℚ}
    (hg : h.get fuel key none = .ok (.found j)) (hv : pyFloatJson j = .ok v)
    {bnd : Except PyErr ℚ} {b : ℚ} (hb : bnd = .ok b) :
    h.ltQ fuel key bnd = .ok (decide (v < b)) := by
  unfold JsonHelper.ltQ
  rw [existsKey_found hg]
  simp only [ok_bind, if_true, eq_self_iff_true, ite_true, hg, pyFloatLookup, hv, hb,
    pure_eq_ok]

lemma gteQ_found {h : JsonHelper} {fuel : Nat} {key : Str} {j : Json} {v : ℚ}
    (hg : h.get fuel key none = .ok (.found j)) (hv : pyFloatJson j = .ok v)
    {bnd : Except PyErr ℚ} {b : ℚ} (hb : bnd = .ok b) :
    h.gteQ fuel key bnd = .ok (decide (b ≤ v)) := by
  unfold JsonHelper.gteQ
  rw [existsKey_found hg]
  simp only [ok_bind, if_true, eq_self_iff_true, ite_true, hg, pyFloatLookup, hv, hb,
    pure_eq_ok]

lemma gtQ_found {h : JsonHelper} {fuel : Nat} {key : Str} {j : Json} {v : ℚ}
    (hg : h.get fuel key none = .ok (.found j)) (hv : pyFloatJson j = .ok v)
    {bnd : Except PyErr ℚ} {b : ℚ} (hb : bnd = .ok b) :
    h.gtQ fuel key bnd = .ok (decide (b < v)) := by
  unfold JsonHelper.gtQ
  rw [existsKey_found hg]
  simp only [ok_bind, if_true, eq_self_iff_true, ite_true, hg, pyFloatLookup, hv, hb,
    pure_eq_ok]

lemma thMsg1_fail (th : Except PyErr Str) (mk : Str → Str)
    (hmk : ∀ te, mk te ≠ []) :
    ∀ f s, (th >>= fun te => (pure (mk te, ([] : Str)) : Except PyErr (Str × Str)))
      = .ok (f, s) → f ≠ [] := by
  intro f s hfs
  cases th with
  | error e => rw [err_bind] at hfs; cases hfs
  | ok te =>
    rw [ok_bind] at hfs
    simp only [pure_eq_ok, Except.ok.injEq, Prod.mk.injEq] at hfs
    rw [← hfs.1]
    exact hmk te

lemma thMsg1_success (th : Except PyErr Str) (mk : Str → Str) :
    ∀ f s, (th >>= fun te => (pure (([] : Str), mk te) : Except PyErr (Str × Str)))
      = .ok (f, s) → f = [] := by
  intro f s hfs
  cases th with
  | error e => rw [err_bind] at hfs; cases hfs
  | ok te =>
    rw [ok_bind] at hfs
    simp only [pure_eq_ok, Except.ok.injEq, Prod.mk.injEq] at hfs
    exact hfs.1.symm

lemma thMsg2_fail (th1 th2 : Except PyErr Str) (mk : Str → Str → Str)
    (hmk : ∀ ts te, mk ts te ≠ []) :
    ∀ f s, (th1 >>= fun ts => th2 >>= fun te =>
        (pure (mk ts te, ([] : Str)) : Except PyErr (Str × Str))) = .ok (f, s) → f ≠ [] := by
  intro f s hfs
  cases th1 with
  | error e => rw [err_bind] at hfs; cases hfs
  | ok ts =>
    rw [ok_bind] at hfs
    cases th2 with
    | error e => rw [err_bind] at hfs; cases hfs
    | ok te =>
      rw [ok_bind] at hfs
      simp only [pure_eq_ok, Except.ok.injEq, Prod.mk.injEq] at hfs
      rw [← hfs.1]
      exact hmk ts te

lemma thMsg2_success (th1 th2 : Except PyErr Str) (mk : Str → Str → Str) :
    ∀ f s, (th1 >>= fun ts => th2 >>= fun te =>
        (pure (([] : Str), mk ts te) : Except PyErr (Str × Str))) = .ok (f, s) → f = [] := by
  intro f s hfs
  cases th1 with
  | error e => rw [err_bind] at hfs; cases hfs
  | ok ts =>
    rw [ok_bind] at hfs
    cases th2 with
    | error e => rw [err_bind] at hfs; cases hfs
    | ok te =>
      rw [ok_bind] at hfs
      simp only [pure_eq_ok, Except.ok.injEq, Prod.mk.injEq] at hfs
      exact hfs.1.symm

lemma evalBranch_char {c1 c2 : Except PyErr Bool} {f1 f2 s0 : Except PyErr (Str × Str)}
    {b1 b2 : Bool} (hc1 : c1 = .ok b1) (hc2 : c2 = .ok b2)
    (hf1 : ∀ f s, f1 = .ok (f, s) → f ≠ [])
    (hf2 : ∀ f s, f2 = .ok (f, s) → f ≠ [])
    (hs0 : ∀ f s, s0 = .ok (f, s) → f = []) :
    ∀ f s, evalBranch c1 c2 f1 f2 s0 = .ok (f, s) → (f = [] ↔ (b1 = false ∧ b2 = false)) := by
  intro f s hfs
  unfold evalBranch at hfs
  rw [hc1, ok_bind] at hfs
  cases b1 with
  | true =>
    rw [if_pos rfl] at hfs
    have hne := hf1 f s hfs
    simp [hne]
  | false =>
    rw [if_neg (by simp)] at hfs
    rw [hc2, ok_bind] at hfs
    cases b2 with
    | true =>
      rw [if_pos rfl] at hfs
      have hne := hf2 f s hfs
      simp [hne]
    | false =>
      rw [if_neg (by simp)] at hfs
      have heq := hs0 f s hfs
      simp [heq]

lemma stripAt_no_at {r : Str} (h : r.head? ≠ some '@') : stripAt r = (false, r) := by
  unfold stripAt
  split
  · simp at h
  · rfl

lemma stripAt_at (t : Str) : stripAt ('@' :: t) = (true, t) := rfl

lemma splitOnChar_append {sep : Char} {l1 : Str} (l2 : Str) (h : sep ∉ l1) :
    splitOnChar sep (l1 ++ sep :: l2) = l1 :: splitOnChar sep l2 := by
  induction l1 with
  | nil =>
    rw [List.nil_append]
    conv_lhs => rw [splitOnChar]
    rw [if_pos rfl]
  | cons c t ih =>
    rw [List.mem_cons, not_or] at h
    rw [List.cons_append]
    conv_lhs => rw [splitOnChar]
    rw [if_neg (fun hc => h.1 hc.symm), ih h.2]

lemma checkThreshold_form_single (fuel : Nat) (ft : Str) (h : JsonHelper) (key al : Str)
    (inv : Bool) (r A : Str) (hst : stripAt r = (inv, A)) (hcolon : ':' ∉ A) :
    checkThreshold fuel ft h key al r = ctBranch fuel ft h key al inv ThStart.zero A := by
  unfold checkThreshold
  rw [hst]
  simp [splitOnChar_eq_single hcolon]

lemma checkThreshold_form_lower (fuel : Nat) (ft : Str) (h : JsonHelper) (key al : Str)
    (inv : Bool) (r A : Str) (hst : stripAt r = (inv, A ++ [':']))
    (hcolon : ':' ∉ A) :
    checkThreshold fuel ft h key al r
      = ctBranch fuel ft h key al inv (ThStart.tok A) "infinity".data := by
  unfold checkThreshold
  rw [hst]
  simp [show A ++ [':'] = A ++ ':' :: ([] : Str) from rfl,
    splitOnChar_append ([] : Str) hcolon, splitOnChar]

lemma checkThreshold_form_both (fuel : Nat) (ft : Str) (h : JsonHelper) (key al : Str)
    (inv : Bool) (r A B : Str) (hst : stripAt r = (inv, A ++ ':' :: B))
    (hcA : ':' ∉ A) (hcB : ':' ∉ B) (hBne : B ≠ []) :
    checkThreshold fuel ft h key al r = ctBranch fuel ft h key al inv (ThStart.tok A) B := by
  unfold checkThreshold
  rw [hst]
  simp [splitOnChar_append B hcA, splitOnChar_eq_single hcB, hBne]

lemma ctBranch_char_tilde (fuel : Nat) (ft : Str) (h : JsonHelper) (key al : Str)
    (invert : Bool) (start : ThStart) (endTok : Str) {j : Json} {v ea : ℚ}
    (hst : start.isTilde = true)
    (hg : h.get fuel key none = .ok (.found j)) (hv : pyFloatJson j = .ok v)
    (he : tokFloat endTok = .ok ea) :
    ∀ f s, ctBranch fuel ft h key al invert start endTok = .ok (f, s) →
      (f = [] ↔ (if invert = true then ¬(v ≤ ea) else v ≤ ea)) := by
  intro f s hfs
  unfold ctBranch at hfs
  simp only [hg, ok_bind] at hfs
  rcases hkv : typeHelper ft (.lookup (.found j)) with e | kv
  · rw [hkv, err_bind] at hfs
    cases hfs
  · rw [hkv, ok_bind] at hfs
    cases invert with
    | false =>
      simp only [hst, if_true, ite_true, eq_self_iff_true, Bool.false_eq_true, if_false,
        ite_false, Bool.not_false] at hfs
      have hiff := evalBranch_char (pure_eq_ok false) (gtQ_found hg hv he)
        (thMsg1_fail _ _ (fun te => by
          simp only [List.append_assoc]
          exact append_left_ne_nil (by decide) _))
        (thMsg1_fail _ _ (fun te => by
          simp only [List.append_assoc]
          exact append_left_ne_nil (by decide) _))
        (thMsg1_success _ _) f s hfs
      rw [hiff]
      simp [not_lt]
    | true =>
      simp only [hst, if_true, ite_true, eq_self_iff_true, Bool.true_eq_false, if_false,
        ite_false, Bool.not_true, Bool.false_eq_true] at hfs
      have hiff := evalBranch_char (lteQ_found hg hv he) (pure_eq_ok false)
        (thMsg1_fail _ _ (fun te => by
          simp only [List.append_assoc]
          exact append_left_ne_nil (by decide) _))
        (thMsg1_fail _ _ (fun te => by
          simp only [List.append_assoc]
          exact append_left_ne_nil (by decide) _))
        (thMsg1_success _ _) f s hfs
      rw [hiff]
      simp

lemma ctBranch_char_inf (fuel : Nat) (ft : Str) (h : JsonHelper) (key al : Str)
    (invert : Bool) (start : ThStart) {j : Json} {v sa : ℚ}
    (hst : start.isTilde = false)
    (hg : h.get fuel key none = .ok (.found j)) (hv : pyFloatJson j = .ok v)
    (hs : start.float = .ok sa) :
    ∀ f s, ctBranch fuel ft h key al invert start "infinity".data = .ok (f, s) →
      (f = [] ↔ (if invert = true then ¬(sa ≤ v) else sa ≤ v)) := by
  intro f s hfs
  unfold ctBranch at hfs
  simp only [hg, ok_bind] at hfs
  rcases hkv : typeHelper ft (.lookup (.found j)) with e | kv
  · rw [hkv, err_bind] at hfs
    cases hfs
  · rw [hkv, ok_bind] at hfs
    cases invert with
    | false =>
      simp only [hst, Bool.false_eq_true, if_false, ite_false, if_true, ite_true,
        eq_self_iff_true, Bool.not_false] at hfs
      have hiff := evalBranch_char (pure_eq_ok false) (ltQ_found hg hv hs)
        (thMsg1_fail _ _ (fun ts => by
          simp only [List.append_assoc]
          exact append_left_ne_nil (by decide) _))
        (thMsg1_fail _ _ (fun ts => by
          simp only [List.append_assoc]
          exact append_left_ne_nil (by decide) _))
        (thMsg1_success _ _) f s hfs
      rw [hiff]
      simp [not_lt]
    | true =>
      simp only [hst, Bool.false_eq_true, if_false, ite_false, if_true, ite_true,
        eq_self_iff_true, Bool.not_true, Bool.true_eq_false] at hfs
      have hiff := evalBranch_char (gteQ_found hg hv hs) (pure_eq_ok false)
        (thMsg1_fail _ _ (fun ts => by
          simp only [List.append_assoc]
          exact append_left_ne_nil (by decide) _))
        (thMsg1_fail _ _ (fun ts => by
          simp only [List.append_assoc]
          exact append_left_ne_nil (by decide) _))
        (thMsg1_success _ _) f s hfs
      rw [hiff]
      simp

lemma ctBranch_char_band (fuel : Nat) (ft : Str) (h : JsonHelper) (key al : Str)
    (invert : Bool) (start : ThStart) (endTok : Str) {j : Json} {v sa ea : ℚ}
    (hst : start.isTilde = false) (hinf : endTok ≠ "infinity".data)
    (hg : h.get fuel key none = .ok (.found j)) (hv : pyFloatJson j = .ok v)
    (hs : start.float = .ok sa) (he : tokFloat endTok = .ok ea) :
    ∀ f s, ctBranch fuel ft h key al invert start endTok = .ok (f, s) →
      (f = [] ↔ (if invert = true then ¬(sa ≤ v ∧ v ≤ ea) else (sa ≤ v ∧ v ≤ ea))) := by
  intro f s hfs
  unfold ctBranch at hfs
  simp only [hg, ok_bind] at hfs
  rcases hkv : typeHelper ft (.lookup (.found j)) with e | kv
  · rw [hkv, err_bind] at hfs
    cases hfs
  · rw [hkv, ok_bind] at hfs
    cases invert with
    | false =>
      simp only [hst, hinf, Bool.false_eq_true, if_false, ite_false, if_true, ite_true,
        eq_self_iff_true, Bool.not_false] at hfs
      have hc2 : (do
          let l ← h.ltQ fuel key start.float
          if l then pure true else h.gtQ fuel key (tokFloat endTok))
          = Except.ok (decide (v < sa) || decide (ea < v)) := by
        rw [ltQ_found hg hv hs, ok_bind]
        by_cases hlt : v < sa
        · simp [hlt, pure_eq_ok]
        · simp [hlt, gtQ_found hg hv he]
      have hiff := evalBranch_char (pure_eq_ok false) hc2
        (thMsg2_fail _ _ _ (fun ts te => by
          simp only [List.append_assoc]
          exact append_left_ne_nil (by decide) _))
        (thMsg2_fail _ _ _ (fun ts te => by
          simp only [List.append_assoc]
          exact append_left_ne_nil (by decide) _))
        (thMsg2_success _ _ _) f s hfs
      rw [hiff]
      simp [decide_eq_false_iff_not, not_lt]
    | true =>
      simp only [hst, hinf, Bool.false_eq_true, if_false, ite_false, if_true, ite_true,
        eq_self_iff_true, Bool.not_true, Bool.true_eq_false] at hfs
      have hc1 : (do
          let g ← h.gteQ fuel key start.float
          if g then h.lteQ fuel key (tokFloat endTok) else pure false)
          = Except.ok (decide (sa ≤ v) && decide (v ≤ ea)) := by
        rw [gteQ_found hg hv hs, ok_bind]
        by_cases hge : sa ≤ v
        · simp [hge, lteQ_found hg hv he]
        · simp [hge, pure_eq_ok]
      have hiff := evalBranch_char hc1 (pure_eq_ok false)
        (thMsg2_fail _ _ _ (fun ts te => by
          simp only [List.append_assoc]
          exact append_left_ne_nil (by decide) _))
        (thMsg2_fail _ _ _ (fun ts te => by
          simp only [List.append_assoc]
          exact append_left_ne_nil (by decide) _))
        (thMsg2_success _ _ _) f s hfs
      rw [hiff]
      simp [Bool.and_eq_false_iff, decide_eq_false_iff_not, not_and_or]

lemma ctBranch_start_congr (fuel : Nat) (ft : Str) (h : JsonHelper) (key al : Str)
    (invert : Bool) (endTok : Str) {s1 s2 : ThStart}
    (hflt : s1.float = s2.float) (hth : typeHelper ft s1.arg = typeHelper ft s2.arg)
    (htl : s1.isTilde = s2.isTilde) :
    ctBranch fuel ft h key al invert s1 endTok = ctBranch fuel ft h key al invert s2 endTok := by
  unfold ctBranch
  simp only [hflt, hth, htl]

lemma tok0_float : ThStart.float (ThStart.tok ('0' :: [])) = ThStart.float ThStart.zero := by
  decide

lemma tok0_th (ft : Str) :
    typeHelper ft (ThStart.tok ('0' :: [])).arg = typeHelper ft ThStart.zero.arg := by
  unfold ThStart.arg
  unfold typeHelper
  split_ifs <;>
    simp [show pyIntArg (ThArg.strArg ('0' :: [])) = pyIntArg (ThArg.intArg 0) from by decide,
      show pyStrArg (ThArg.strArg ('0' :: [])) = pyStrArg (ThArg.intArg 0) from by decide]

/-- C3: for a key resolving to a numeric value `v`, evaluating the
un-inverted single-token range `A` (no colon) is the same computation as
evaluating the range `0:A` (identical result, messages included), and when
it returns, `v` passes exactly when `0 ≤ v ≤ A`; in particular a value
strictly below `0` fails such a range. -/
theorem c3_single_token_range_is_zero_to_A (fuel : Nat) (ft : Str) (h : JsonHelper)
    (key al A : Str) (j : Json) (v a : ℚ)
    (hg : h.get fuel key none = .ok (.found j))
    (hv : pyFloatJson j = .ok v)
    (hA : parseFloatChars A = some a)
    (hcolon : ':' ∉ A)
    (hat : A.head? ≠ some '@') :
    checkThreshold fuel ft h key al A = checkThreshold fuel ft h key al ("0:".data ++ A) ∧
    (∀ f s, checkThreshold fuel ft h key al A = .ok (f, s) → (f = [] ↔ (0 ≤ v ∧ v ≤ a))) := by
  have hAne : A ≠ [] := by
    intro he2
    rw [he2, show parseFloatChars ([] : Str) = none from by decide] at hA
    exact Option.noConfusion hA
  have hAinf : A ≠ "infinity".data := by
    intro he2
    rw [he2, show parseFloatChars "infinity".data = none from by decide] at hA
    exact Option.noConfusion hA
  have hea : tokFloat A = .ok a := by
    unfold tokFloat
    rw [hA]
  have hL : checkThreshold fuel ft h key al A = ctBranch fuel ft h key al false ThStart.zero A :=
    checkThreshold_form_single fuel ft h key al false A A (stripAt_no_at hat) hcolon
  have hR : checkThreshold fuel ft h key al ("0:".data ++ A)
      = ctBranch fuel ft h key al false (ThStart.tok ('0' :: [])) A := by
    rw [show "0:".data ++ A = '0' :: ':' :: A from rfl]
    exact checkThreshold_form_both fuel ft h key al false ('0' :: ':' :: A) ('0' :: []) A
      (stripAt_no_at (by simp)) (by decide) hcolon hAne
  constructor
  · rw [hL, hR]
    exact (ctBranch_start_congr fuel ft h key al false A tok0_float (tok0_th ft) rfl).symm
  · intro f s hfs
    rw [hL] at hfs
    have hc := ctBranch_char_band fuel ft h key al false ThStart.zero A rfl hAinf hg hv rfl
      hea f s hfs
    simpa using hc

/-- Witness for C3 on `{"m": 5}` with range `10` versus `0:10`. -/
theorem c3_witness :
    jsonHelperM5.get 6 "m".data none = .ok (.found (.int 5)) ∧
    pyFloatJson (.int 5) = .ok 5 ∧
    parseFloatChars "10".data = some 10 ∧
    (':' ∉ "10".data) ∧ ("10".data.head? ≠ some '@') ∧
    (checkThreshold 6 "str".data jsonHelperM5 "m".data "m".data "10".data
      = checkThreshold 6 "str".data jsonHelperM5 "m".data "m".data ("0:".data ++ "10".data)) ∧
    (∀ f s, checkThreshold 6 "str".data jsonHelperM5 "m".data "m".data "10".data = .ok (f, s) →
      (f = [] ↔ (0 ≤ (5 : ℚ) ∧ (5 : ℚ) ≤ 10))) :=
  ⟨rfl, by decide, by decide, by decide, by decide,
   (c3_single_token_range_is_zero_to_A 6 "str".data jsonHelperM5 "m".data "m".data "10".data
     (.int 5) 5 10 rfl (by decide) (by decide) (by decide) (by decide)).1,
   (c3_single_token_range_is_zero_to_A 6 "str".data jsonHelperM5 "m".data "m".data "10".data
     (.int 5) 5 10 rfl (by decide) (by decide) (by decide) (by decide)).2⟩

lemma parse_tok_facts {C : Str} {c : ℚ} (hC : parseFloatChars C = some c) :
    tokFloat C = .ok c ∧ C ≠ [] ∧ C ≠ "infinity".data ∧ (ThStart.tok C).isTilde = false := by
  have h1 : tokFloat C = .ok c := by
    unfold tokFloat
    rw [hC]
  have h2 : C ≠ [] := by
    intro he
    rw [he, show parseFloatChars ([] : Str) = none from by decide] at hC
    exact Option.noConfusion hC
  have h3 : C ≠ "infinity".data := by
    intro he
    rw [he, show parseFloatChars "infinity".data = none from by decide] at hC
    exact Option.noConfusion hC
  have h4 : C ≠ "~".data := by
    intro he
    rw [he, show parseFloatChars "~".data = none from by decide] at hC
    exact Option.noConfusion hC
  refine ⟨h1, h2, h3, ?_⟩
  unfold ThStart.isTilde
  exact beq_eq_false_iff_ne.mpr h4

lemma head_append_cons {A : Str} (hA : A ≠ []) (c : Char) (t : Str) :
    (A ++ c :: t).head? = A.head? := by
  cases A with
  | nil => exact absurd rfl hA
  | cons a t2 => simp

/-- C4: for a key resolving to a numeric value `v` and each range form
`A`, `A:`, `~:B`, `A:B` on numeric tokens, whenever both the un-inverted
range and its `@`-inverted counterpart evaluate successfully, the inverted
range passes exactly when the un-inverted range fails and vice versa (the
configured band, boundaries included, becomes the failure zone). -/
theorem c4_at_inverts_pass_fail (fuel : Nat) (ft : Str) (h : JsonHelper) (key al : Str)
    (j : Json) (v : ℚ)
    (hg : h.get fuel key none = .ok (.found j)) (hv : pyFloatJson j = .ok v) :
    (∀ A a f s f' s', parseFloatChars A = some a → (':' ∉ A) → A.head? ≠ some '@' →
      checkThreshold fuel ft h key al A = .ok (f, s) →
      checkThreshold fuel ft h key al ('@' :: A) = .ok (f', s') →
      (f' = [] ↔ ¬ f = [])) ∧
    (∀ A a f s f' s', parseFloatChars A = some a → (':' ∉ A) → A.head? ≠ some '@' →
      checkThreshold fuel ft h key al (A ++ [':']) = .ok (f, s) →
      checkThreshold fuel ft h key al ('@' :: (A ++ [':'])) = .ok (f', s') →
      (f' = [] ↔ ¬ f = [])) ∧
    (∀ B b f s f' s', parseFloatChars B = some b → (':' ∉ B) →
      checkThreshold fuel ft h key al ("~:".data ++ B) = .ok (f, s) →
      checkThreshold fuel ft h key al ("@~:".data ++ B) = .ok (f', s') →
      (f' = [] ↔ ¬ f = [])) ∧
    (∀ A B a b f s f' s', parseFloatChars A = some a → parseFloatChars B = some b →
      (':' ∉ A) → (':' ∉ B) → A.head? ≠ some '@' →
      checkThreshold fuel ft h key al (A ++ ':' :: B) = .ok (f, s) →
      checkThreshold fuel ft h key al ('@' :: (A ++ ':' :: B)) = .ok (f', s') →
      (f' = [] ↔ ¬ f = [])) := by
  refine ⟨?_, ?_, ?_, ?_⟩
  · intro A a f s f' s' hA hcolon hat hok hok'
    obtain ⟨hAf, hAne, hAinf, _⟩ := parse_tok_facts hA
    rw [checkThreshold_form_single fuel ft h key al false A A (stripAt_no_at hat) hcolon]
      at hok
    rw [checkThreshold_form_single fuel ft h key al true ('@' :: A) A (stripAt_at A) hcolon]
      at hok'
    have h1 := ctBranch_char_band fuel ft h key al false ThStart.zero A rfl hAinf hg hv rfl
      hAf f s hok
    have h2 := ctBranch_char_band fuel ft h key al true ThStart.zero A rfl hAinf hg hv rfl
      hAf f' s' hok'
    rw [h2, h1]
    simp
  · intro A a f s f' s' hA hcolon hat hok hok'
    obtain ⟨hAf, hAne, hAinf, hAtl⟩ := parse_tok_facts hA
    have hhead : (A ++ [':']).head? ≠ some '@' := by
      rw [show (A ++ [':']) = A ++ ':' :: ([] : Str) from rfl, head_append_cons hAne]
      exact hat
    rw [checkThreshold_form_lower fuel ft h key al false (A ++ [':']) A
      (stripAt_no_at hhead) hcolon] at hok
    rw [checkThreshold_form_lower fuel ft h key al true ('@' :: (A ++ [':'])) A
      (stripAt_at _) hcolon] at hok'
    have h1 := ctBranch_char_inf fuel ft h key al false (ThStart.tok A) hAtl hg hv hAf
      f s hok
    have h2 := ctBranch_char_inf fuel ft h key al true (ThStart.tok A) hAtl hg hv hAf
      f' s' hok'
    rw [h2, h1]
    simp
  · intro B b f s f' s' hB hcolon hok hok'
    obtain ⟨hBf, hBne, hBinf, _⟩ := parse_tok_facts hB
    rw [show "~:".data ++ B = ('~' :: []) ++ ':' :: B from rfl] at hok
    rw [checkThreshold_form_both fuel ft h key al false (('~' :: []) ++ ':' :: B)
      ('~' :: []) B (stripAt_no_at (by simp)) (by decide) hcolon hBne] at hok
    rw [show "@~:".data ++ B = '@' :: (('~' :: []) ++ ':' :: B) from rfl] at hok'
    rw [checkThreshold_form_both fuel ft h key al true ('@' :: (('~' :: []) ++ ':' :: B))
      ('~' :: []) B (stripAt_at _) (by decide) hcolon hBne] at hok'
    have h1 := ctBranch_char_tilde fuel ft h key al false (ThStart.tok ('~' :: [])) B
      (by decide) hg hv hBf f s hok
    have h2 := ctBranch_char_tilde fuel ft h key al true (ThStart.tok ('~' :: [])) B
      (by decide) hg hv hBf f' s' hok'
    rw [h2, h1]
    simp
  · intro A B a b f s f' s' hA hB hcolonA hcolonB hat hok hok'
    obtain ⟨hAf, hAne, hAinf, hAtl⟩ := parse_tok_facts hA
    obtain ⟨hBf, hBne, hBinf, _⟩ := parse_tok_facts hB
    have hhead : (A ++ ':' :: B).head? ≠ some '@' := by
      rw [head_append_cons hAne]
      exact hat
    rw [checkThreshold_form_both fuel ft h key al false (A ++ ':' :: B) A B
      (stripAt_no_at hhead) hcolonA hcolonB hBne] at hok
    rw [checkThreshold_form_both fuel ft h key al true ('@' :: (A ++ ':' :: B)) A B
      (stripAt_at _) hcolonA hcolonB hBne] at hok'
    have h1 := ctBranch_char_band fuel ft h key al false (ThStart.tok A) B hAtl hBinf
      hg hv hAf hBf f s hok
    have h2 := ctBranch_char_band fuel ft h key al true (ThStart.tok A) B hAtl hBinf
      hg hv hAf hBf f' s' hok'
    rw [h2, h1]
    simp

/-- Witness for C4 on `{"m": 5}`: the band form `1:3` fails while `@1:3`
passes, and the theorem's inversion equivalence is applied at that input. -/
theorem c4_witness :
    jsonHelperM5.get 6 "m".data none = .ok (.found (.int 5)) ∧
    pyFloatJson (.int 5) = .ok 5 ∧
    checkThreshold 6 "str".data jsonHelperM5 "m".data "m".data ("1".data ++ ':' :: "3".data)
      = .ok (" Value for key m (5) was outside the range \x271 : 3\x27.".data, []) ∧
    checkThreshold 6 "str".data jsonHelperM5 "m".data "m".data
        ('@' :: ("1".data ++ ':' :: "3".data))
      = .ok ([], " Value for key m (5) wasnot in range \x271 : 3\x27.".data) ∧
    (([] : Str) = [] ↔
      ¬ (" Value for key m (5) was outside the range \x271 : 3\x27.".data : Str) = []) :=
  ⟨rfl, by decide, by decide, by decide,
   (c4_at_inverts_pass_fail 6 "str".data jsonHelperM5 "m".data "m".data (.int 5) 5 rfl
       (by decide)).2.2.2
     "1".data "3".data 1 3
     (" Value for key m (5) was outside the range \x271 : 3\x27.".data) []
     [] (" Value for key m (5) wasnot in range \x271 : 3\x27.".data)
     (by decide) (by decide) (by decide) (by decide) (by decide) (by decide) (by decide)⟩

lemma evalBranch_same_conds {c1 c2 : Except PyErr Bool}
    {F1 G1 S1 F2 G2 S2 : Except PyErr (Str × Str)}
    (hF1 : ∀ f s, F1 = .ok (f, s) → f ≠ []) (hG1 : ∀ f s, G1 = .ok (f, s) → f ≠ [])
    (hS1 : ∀ f s, S1 = .ok (f, s) → f = [])
    (hF2 : ∀ f s, F2 = .ok (f, s) → f ≠ []) (hG2 : ∀ f s, G2 = .ok (f, s) → f ≠ [])
    (hS2 : ∀ f s, S2 = .ok (f, s) → f = [])
    {f1 s1 f2 s2 : Str}
    (h1 : evalBranch c1 c2 F1 G1 S1 = .ok (f1, s1))
    (h2 : evalBranch c1 c2 F2 G2 S2 = .ok (f2, s2)) :
    (f1 = [] ↔ f2 = []) := by
  unfold evalBranch at h1 h2
  cases c1 with
  | error e =>
    rw [err_bind] at h1
    cases h1
  | ok b1 =>
    rw [ok_bind] at h1 h2
    cases b1 with
    | true =>
      rw [if_pos rfl] at h1 h2
      have hn1 := hF1 _ _ h1
      have hn2 := hF2 _ _ h2
      simp [hn1, hn2]
    | false =>
      rw [if_neg (by simp)] at h1 h2
      cases c2 with
      | error e =>
        rw [err_bind] at h1
        cases h1
      | ok b2 =>
        rw [ok_bind] at h1 h2
        cases b2 with
        | true =>
          rw [if_pos rfl] at h1 h2
          have hn1 := hG1 _ _ h1
          have hn2 := hG2 _ _ h2
          simp [hn1, hn2]
        | false =>
          rw [if_neg (by simp)] at h1 h2
          have he1 := hS1 _ _ h1
          have he2 := hS2 _ _ h2
          simp [he1, he2]

lemma ctBranch_ft_irrelevant (fuel : Nat) (h : JsonHelper) (key al : Str)
    (invert : Bool) (start : ThStart) (endTok : Str) (ft1 ft2 : Str)
    {f1 s1 f2 s2 : Str}
    (h1 : ctBranch fuel ft1 h key al invert start endTok = .ok (f1, s1))
    (h2 : ctBranch fuel ft2 h key al invert start endTok = .ok (f2, s2)) :
    (f1 = [] ↔ f2 = []) := by
  unfold ctBranch at h1 h2
  cases hget : h.get fuel key none with
  | error e =>
    rw [hget, err_bind] at h1
    cases h1
  | ok r =>
    simp only [hget, ok_bind] at h1 h2
    cases hkv1 : typeHelper ft1 (.lookup r) with
    | error e =>
      rw [hkv1, err_bind] at h1
      cases h1
    | ok kv1 =>
      rw [hkv1, ok_bind] at h1
      cases hkv2 : typeHelper ft2 (.lookup r) with
      | error e =>
        rw [hkv2, err_bind] at h2
        cases h2
      | ok kv2 =>
        rw [hkv2, ok_bind] at h2
        by_cases hst : start.isTilde = true
        · rw [if_pos hst] at h1 h2
          exact evalBranch_same_conds
            (thMsg1_fail _ _ (fun te => by
              simp only [List.append_assoc]
              exact append_left_ne_nil (by decide) _))
            (thMsg1_fail _ _ (fun te => by
              simp only [List.append_assoc]
              exact append_left_ne_nil (by decide) _))
            (thMsg1_success _ _)
            (thMsg1_fail _ _ (fun te => by
              simp only [List.append_assoc]
              exact append_left_ne_nil (by decide) _))
            (thMsg1_fail _ _ (fun te => by
              simp only [List.append_assoc]
              exact append_left_ne_nil (by decide) _))
            (thMsg1_success _ _) h1 h2
        · rw [if_neg hst] at h1 h2
          by_cases hinf : endTok = "infinity".data
          · rw [if_pos hinf] at h1 h2
            exact evalBranch_same_conds
              (thMsg1_fail _ _ (fun ts => by
                simp only [List.append_assoc]
                exact append_left_ne_nil (by decide) _))
              (thMsg1_fail _ _ (fun ts => by
                simp only [List.append_assoc]
                exact append_left_ne_nil (by decide) _))
              (thMsg1_success _ _)
              (thMsg1_fail _ _ (fun ts => by
                simp only [List.append_assoc]
                exact append_left_ne_nil (by decide) _))
              (thMsg1_fail _ _ (fun ts => by
                simp only [List.append_assoc]
                exact append_left_ne_nil (by decide) _))
              (thMsg1_success _ _) h1 h2
          · rw [if_neg hinf] at h1 h2
            exact evalBranch_same_conds
              (thMsg2_fail _ _ _ (fun ts te => by
                simp only [List.append_assoc]
                exact append_left_ne_nil (by decide) _))
              (thMsg2_fail _ _ _ (fun ts te => by
                simp only [List.append_assoc]
                exact append_left_ne_nil (by decide) _))
              (thMsg2_success _ _ _)
              (thMsg2_fail _ _ _ (fun ts te => by
                simp only [List.append_assoc]
                exact append_left_ne_nil (by decide) _))
              (thMsg2_fail _ _ _ (fun ts te => by
                simp only [List.append_assoc]
                exact append_left_ne_nil (by decide) _))
              (thMsg2_success _ _ _) h1 h2

lemma checkEquality_ft_irrelevant (fuel : Nat) (h : JsonHelper) (ft1 ft2 : Str) :
    ∀ (lst : List Str) (f1 s1 f2 s2 : Str),
      checkEquality fuel ft1 h lst = .ok (f1, s1) →
      checkEquality fuel ft2 h lst = .ok (f2, s2) → (f1 = [] ↔ f2 = []) := by
  intro lst
  induction lst with
  | nil =>
    intro f1 s1 f2 s2 h1 h2
    unfold checkEquality at h1 h2
    simp only [pure_eq_ok, Except.ok.injEq, Prod.mk.injEq] at h1 h2
    rw [← h1.1, ← h2.1]
  | cons kv rest ih =>
    intro f1 s1 f2 s2 h1 h2
    unfold checkEquality at h1 h2
    cases hsp : split2comma kv with
    | error e =>
      rw [hsp, err_bind] at h1
      cases h1
    | ok kvp =>
      simp only [hsp, ok_bind] at h1 h2
      cases hget : h.get fuel (getKeyAlias kvp.1).1 none with
      | error e =>
        rw [hget, err_bind] at h1
        cases h1
      | ok r =>
        simp only [hget, ok_bind] at h1 h2
        cases hkv1 : typeHelper ft1 (.lookup r) with
        | error e =>
          rw [hkv1, err_bind] at h1
          cases h1
        | ok kv1 =>
          rw [hkv1, ok_bind] at h1
          cases hkv2 : typeHelper ft2 (.lookup r) with
          | error e =>
            rw [hkv2, err_bind] at h2
            cases h2
          | ok kv2 =>
            rw [hkv2, ok_bind] at h2
            cases heq : h.equalsV fuel (getKeyAlias kvp.1).1 kvp.2 with
            | error e =>
              rw [heq, err_bind] at h1
              cases h1
            | ok b =>
              rw [heq, ok_bind] at h1 h2
              cases hr1 : checkEquality fuel ft1 h rest with
              | error e =>
                rw [hr1, err_bind] at h1
                cases h1
              | ok p1 =>
                cases hr2 : checkEquality fuel ft2 h rest with
                | error e =>
                  rw [hr2, err_bind] at h2
                  cases h2
                | ok p2 =>
                  obtain ⟨rf1, rs1⟩ := p1
                  obtain ⟨rf2, rs2⟩ := p2
                  rw [hr1, ok_bind] at h1
                  rw [hr2, ok_bind] at h2
                  simp only [pure_eq_ok, Except.ok.injEq, Prod.mk.injEq] at h1 h2
                  have hih := ih rf1 rs1 rf2 rs2 hr1 hr2
                  rw [← h1.1, ← h2.1]
                  cases b with
                  | true =>
                    simp only [if_pos rfl]
                    simpa using hih
                  | false =>
                    simp only [if_neg (by simp : ¬ (false = true))]
                    have hm1 : (" Value for key ".data ++ (getKeyAlias kvp.1).2 ++ " (".data
                        ++ kv1 ++ ") did not match ".data ++ kvp.2 ++ ".".data) ≠ [] := by
                      simp only [List.append_assoc]
                      exact append_left_ne_nil (by decide) _
                    have hm2 : (" Value for key ".data ++ (getKeyAlias kvp.1).2 ++ " (".data
                        ++ kv2 ++ ") did not match ".data ++ kvp.2 ++ ".".data) ≠ [] := by
                      simp only [List.append_assoc]
                      exact append_left_ne_nil (by decide) _
                    simp [List.append_eq_nil, hm1, hm2]

/-- C9: the value-type/scaling mode (`str`, `size`, `SI`, or any other
`field_type` string) never changes the pass/fail verdict of threshold or
equality checks: whenever two runs differing only in the mode both return,
their failure texts are empty together (the mode only affects the rendered
value inside the messages, never the comparison arithmetic). -/
theorem c9_field_type_noninterference :
    (∀ (fuel : Nat) (h : JsonHelper) (key al r ft1 ft2 : Str) (f1 s1 f2 s2 : Str),
      checkThreshold fuel ft1 h key al r = .ok (f1, s1) →
      checkThreshold fuel ft2 h key al r = .ok (f2, s2) →
      (f1 = [] ↔ f2 = [])) ∧
    (∀ (fuel : Nat) (h : JsonHelper) (lst : List Str) (ft1 ft2 : Str) (f1 s1 f2 s2 : Str),
      checkEquality fuel ft1 h lst = .ok (f1, s1) →
      checkEquality fuel ft2 h lst = .ok (f2, s2) →
      (f1 = [] ↔ f2 = [])) := by
  constructor
  · intro fuel h key al r ft1 ft2 f1 s1 f2 s2 h1 h2
    unfold checkThreshold at h1 h2
    exact ctBranch_ft_irrelevant fuel h key al _ _ _ ft1 ft2 h1 h2
  · intro fuel h lst ft1 ft2 f1 s1 f2 s2 h1 h2
    exact checkEquality_ft_irrelevant fuel h ft1 ft2 lst f1 s1 f2 s2 h1 h2

/-- Witness for C9 on `{"m": 5}`: the failing threshold `m > 3` under
`str` versus `size` mode, and an equality rule under both modes. -/
theorem c9_witness :
    checkThreshold 6 "str".data jsonHelperM5 "m".data "m".data "~:3".data
      = .ok (" Value for key m (5) was greater than 3.".data, []) ∧
    checkThreshold 6 "size".data jsonHelperM5 "m".data "m".data "~:3".data
      = .ok (" Value for key m (5 bytes) was greater than 3 bytes.".data, []) ∧
    ((" Value for key m (5) was greater than 3.".data : Str) = [] ↔
      (" Value for key m (5 bytes) was greater than 3 bytes.".data : Str) = []) ∧
    checkEquality 6 "str".data jsonHelperM5 ["m,5".data] = .ok ([], " Value for key m (5) does match 5.".data) ∧
    checkEquality 6 "size".data jsonHelperM5 ["m,5".data] = .ok ([], " Value for key m (5 bytes) does match 5.".data) ∧
    (([] : Str) = [] ↔ ([] : Str) = []) :=
  ⟨by decide, by decide,
   c9_field_type_noninterference.1 6 jsonHelperM5 "m".data "m".data "~:3".data
     "str".data "size".data (" Value for key m (5) was greater than 3.".data) []
     (" Value for key m (5 bytes) was greater than 3 bytes.".data) []
     (by decide) (by decide),
   by decide, by decide,
   c9_field_type_noninterference.2 6 jsonHelperM5 ["m,5".data] "str".data "size".data
     [] (" Value for key m (5) does match 5.".data)
     [] (" Value for key m (5 bytes) does match 5.".data)
     (by decide) (by decide)⟩

lemma getKeyAlias_no_gt {k : Str} (h : '>' ∉ k) : getKeyAlias k = (k, k) := by
  unfold getKeyAlias
  rw [if_neg h]

/-- C8: for a six-part metric spec `key,uom,warnRange,critRange,min,max`
whose key resolves, the minimum bound is evaluated as the synthetic range
`min + ':'` and the maximum bound as `'~:' + max`, and their failure text is
appended to the critical tier unconditionally, while the `warnRange` failure
text goes to the warning tier and the `critRange` failure text to the
critical tier (critical = critRange ++ min ++ max failures, in that order). -/
theorem c8_six_part_metric_tier_routing (fuel : Nat) (ft : Str) (h : JsonHelper)
    (key uom wRange cRange minB maxB : Str) (j : Json)
    (fw sw fc sc fm sm fx sx : Str)
    (hkeyc : ',' ∉ key) (hgt : '>' ∉ key) (huomc : ',' ∉ uom) (hwc : ',' ∉ wRange)
    (hcc : ',' ∉ cRange) (hmnc : ',' ∉ minB) (hmxc : ',' ∉ maxB)
    (hg : h.get fuel key none = .ok (.found j))
    (hw : checkThreshold fuel ft h key key wRange = .ok (fw, sw))
    (hc : checkThreshold fuel ft h key key cRange = .ok (fc, sc))
    (hm : checkThreshold fuel ft h key key (minB ++ ":".data) = .ok (fm, sm))
    (hx : checkThreshold fuel ft h key key ("~:".data ++ maxB) = .ok (fx, sx)) :
    ∃ M, checkMetrics fuel ft h
        [key ++ ',' :: (uom ++ ',' :: (wRange ++ ',' :: (cRange ++ ',' :: (minB ++ ',' :: maxB))))]
      = .ok (M, fw, fc ++ fm ++ fx) := by
  have hmem : ',' ∈ (key ++ ',' :: (uom ++ ',' :: (wRange ++ ',' :: (cRange ++ ',' ::
      (minB ++ ',' :: maxB))))) := by
    simp
  have hsplit : splitOnChar ',' (key ++ ',' :: (uom ++ ',' :: (wRange ++ ',' :: (cRange ++
      ',' :: (minB ++ ',' :: maxB))))) = [key, uom, wRange, cRange, minB, maxB] := by
    rw [splitOnChar_append _ hkeyc, splitOnChar_append _ huomc, splitOnChar_append _ hwc,
      splitOnChar_append _ hcc, splitOnChar_append _ hmnc, splitOnChar_eq_single hmxc]
  have hmp : metricParse (key ++ ',' :: (uom ++ ',' :: (wRange ++ ',' :: (cRange ++ ',' ::
      (minB ++ ',' :: maxB))))) = (key, uom, some wRange, some cRange, some minB, some maxB) := by
    unfold metricParse
    rw [if_pos hmem, hsplit]
    simp
  have hka : getKeyAlias key = (key, key) := getKeyAlias_no_gt hgt
  have hex : h.existsKey fuel key = .ok true := existsKey_found hg
  simp only [checkMetrics, hmp, hka, hex, ok_bind, if_pos rfl, hg, hw, hc, hm, hx,
    pure_eq_ok, List.append_nil]
  exact ⟨_, rfl⟩

/-- Witness for C8 on `{"m": 5}` with the spec `m,u,1:4,1:5,6,10`: the warn
range failure lands in the warning tier, the failing minimum bound `6`
(evaluated as `6:`) lands in the critical tier. -/
theorem c8_witness :
    jsonHelperM5.get 6 "m".data none = .ok (.found (.int 5)) ∧
    checkThreshold 6 "str".data jsonHelperM5 "m".data "m".data "1:4".data
      = .ok (" Value for key m (5) was outside the range \x271 : 4\x27.".data, []) ∧
    checkThreshold 6 "str".data jsonHelperM5 "m".data "m".data ("6".data ++ ":".data)
      = .ok (" Value for key m (5) was less than 6.".data, []) ∧
    ∃ M, checkMetrics 6 "str".data jsonHelperM5
        ["m".data ++ ',' :: ("u".data ++ ',' :: ("1:4".data ++ ',' :: ("1:5".data ++ ',' ::
          ("6".data ++ ',' :: "10".data))))]
      = .ok (M, " Value for key m (5) was outside the range \x271 : 4\x27.".data,
          [] ++ " Value for key m (5) was less than 6.".data ++ []) :=
  ⟨rfl, by decide, by decide,
   c8_six_part_metric_tier_routing 6 "str".data jsonHelperM5
     "m".data "u".data "1:4".data "1:5".data "6".data "10".data (.int 5)
     (" Value for key m (5) was outside the range \x271 : 4\x27.".data) []
     [] (" Value for key m (5) was in range \x271 : 5\x27.".data)
     (" Value for key m (5) was less than 6.".data) []
     [] (" Value for key m (5) was in range \x27:10\x27.".data)
     (by decide) (by decide) (by decide) (by decide) (by decide) (by decide) (by decide)
     rfl (by decide) (by decide) (by decide) (by decide)⟩
